import Mathlib

/-!
Verification of the cctv-weather retry-and-partial-failure orchestration engine.

The definitions below are a shallow embedding of the TypeScript sources:
`src/infrastructure/retry/retry.service.ts` (error classifier, `withRetry`,
`withRetrySafe`), `src/services/messaging/media-handler.ts` (`batchImages`),
the orchestrator `index.ts` (`run`, `determineExitCode`), the fallback store
`fallback.ts` (`saveFailedReport`), the Telegram delivery service
(`sendWeatherReport`) and the capture service (`main` / `captureAndAnalyze`).
Asynchronous effects are modelled by explicit oracles: an operation under
retry is a function from its invocation count to an `Except` outcome, and a
run of the engine returns its outcome together with the observable trace
(number of operation invocations and the list of backoff delays slept).
-/

namespace CctvWeather

/-- JS `String.prototype.toLowerCase` restricted to the character map. -/
def lowerStr (s : String) : String :=
  String.mk (s.toList.map Char.toLower)

/-- `startsWithChars hay needle = true` iff `needle` is a prefix of `hay`. -/
def startsWithChars : List Char → List Char → Bool
  | _, [] => true
  | [], _ :: _ => false
  | a :: as, b :: bs => a == b && startsWithChars as bs

/-- `containsChars hay needle = true` iff `needle` occurs contiguously in `hay`. -/
def containsChars : List Char → List Char → Bool
  | [], needle => needle.isEmpty
  | a :: as, needle => startsWithChars (a :: as) needle || containsChars as needle

/-- JS `String.prototype.includes`. -/
def strContains (hay needle : String) : Bool :=
  containsChars hay.toList needle.toList

/-- A JS `Error` value: only `message` (and `stack`) are read by the code. -/
structure Err where
  message : String
  stack : String := ""
  deriving DecidableEq, Repr

/-- JS `Error.prototype.toString()`: `"Error"` or `"Error: <message>"`. -/
def errToString (e : Err) : String :=
  if e.message = "" then "Error" else "Error: " ++ e.message

/-- Network-failure substrings from `isTransientError`. -/
def networkErrors : List String :=
  ["econnreset", "econnrefused", "etimedout", "enotfound", "enetunreach",
   "ehostunreach", "socket hang up", "network error", "fetch failed"]

/-- Retryable HTTP status substrings from `isTransientError`. -/
def httpErrors : List String :=
  ["429", "500", "502", "503", "504"]

/-- Timeout substrings from `isTransientError`. -/
def timeoutErrors : List String :=
  ["timeout", "timed out", "deadline exceeded"]

/-- Rate-limit substrings from `isTransientError`. -/
def rateLimitErrors : List String :=
  ["rate limit", "too many requests", "quota exceeded"]

/-- `error-classifier.ts` `isTransientError`: case-insensitive substring match
of the message and the `toString` form against the transient pattern lists. -/
def isTransientError (e : Err) : Bool :=
  let errorMessage := lowerStr e.message
  let errorString := lowerStr (errToString e)
  let isNetworkError := networkErrors.any fun p =>
    strContains errorMessage p || strContains errorString p
  let isHttpError := httpErrors.any fun p =>
    strContains errorMessage p || strContains errorString p
  let isTimeoutError := timeoutErrors.any fun p =>
    strContains errorMessage p || strContains errorString p
  let isRateLimitError := rateLimitErrors.any fun p =>
    strContains errorMessage p || strContains errorString p
  isNetworkError || isHttpError || isTimeoutError || isRateLimitError

/-- Permanent-failure substrings from `isPermanentError`. -/
def permanentErrors : List String :=
  ["unauthorized", "forbidden", "not found", "bad request", "400", "401",
   "403", "404", "invalid", "authentication failed", "token"]

/-- `error-classifier.ts` `isPermanentError`: case-insensitive substring match
of the message against the permanent pattern list. -/
def isPermanentError (e : Err) : Bool :=
  permanentErrors.any fun p => strContains (lowerStr e.message) p

/-- `RetryConfig` from `retry.types.ts`. `shouldRetry` and `onRetry` are the
optional classifier override and observer callback; the observer may itself
throw, which is modelled by it returning `Except Err Unit`. -/
structure RetryConfig where
  maxRetries : Nat
  initialDelayMs : Nat
  backoffMultiplier : Nat
  shouldRetry : Option (Err → Bool) := none
  onRetry : Option (Nat → Err → Nat → Except Err Unit) := none

/-- `defaultRetryConfig` from `retry.config.ts`. -/
def defaultRetryConfig : RetryConfig :=
  { maxRetries := 3, initialDelayMs := 120000, backoffMultiplier := 2 }

/-- The error thrown by the unreachable final line of `withRetry`. -/
def opFailedErr : Err := { message := "Operation failed" }

/-- Result of one execution of `withRetry`: the outcome (returned value or
thrown error), the number of times the operation was invoked, and the list of
backoff delays actually slept, in order. -/
structure RunResult (α : Type) where
  outcome : Except Err α
  opCalls : Nat
  delays : List Nat
  deriving Repr

/-- The observer invocation: `finalConfig.onRetry(...)` when set, otherwise
the `console.log` branch, which never throws. -/
def obsCall (cfg : RetryConfig) (attempt : Nat) (e : Err) (delayMs : Nat) :
    Except Err Unit :=
  match cfg.onRetry with
  | some f => f attempt e delayMs
  | none => .ok ()

/-- Decision taken by the `catch` block of `withRetry` for a failure `e`
caught during iteration `attempt`. -/
inductive CatchStep where
  | thrown (e : Err)
  | continueRetry (e : Err)
  deriving Repr

/-- The `catch` block of `withRetry`: a failure not accepted by `shouldRetry`
is rethrown at once; a failure on the last attempt is rethrown; otherwise the
loop continues with the next attempt. -/
def handleFailure (cfg : RetryConfig) (sr : Err → Bool) (attempt : Nat)
    (e : Err) : CatchStep :=
  if !(sr e) then .thrown e
  else if attempt = cfg.maxRetries then .thrown e
  else .continueRetry e

/-- The `for` loop of `withRetry`. `fuel` is the number of loop iterations
still allowed (`maxRetries + 1 - attempt` at entry), `attempt` the 0-based
loop index, `lastErr` the `lastError` variable, `calls` the number of times
the operation has been invoked so far, `delays` the delays slept so far.
When the fuel runs out the loop has exited and the final
`throw lastError || new Error('Operation failed')` line runs. -/
def withRetryAux {α : Type} (cfg : RetryConfig) (op : Nat → Except Err α)
    (sr : Err → Bool) :
    Nat → Nat → Option Err → Nat → List Nat → RunResult α
  | 0, _, lastErr, calls, delays =>
      { outcome := .error (lastErr.getD opFailedErr), opCalls := calls,
        delays := delays }
  | fuel + 1, attempt, lastErr, calls, delays =>
      if attempt = 0 then
        match op calls with
        | .ok v => { outcome := .ok v, opCalls := calls + 1, delays := delays }
        | .error e =>
          match handleFailure cfg sr attempt e with
          | .thrown e2 =>
              { outcome := .error e2, opCalls := calls + 1, delays := delays }
          | .continueRetry e2 =>
              withRetryAux cfg op sr fuel (attempt + 1) (some e2) (calls + 1)
                delays
      else
        let d := cfg.initialDelayMs * cfg.backoffMultiplier ^ (attempt - 1)
        match obsCall cfg attempt (lastErr.getD opFailedErr) d with
        | .error e =>
          match handleFailure cfg sr attempt e with
          | .thrown e2 =>
              { outcome := .error e2, opCalls := calls, delays := delays }
          | .continueRetry e2 =>
              withRetryAux cfg op sr fuel (attempt + 1) (some e2) calls delays
        | .ok _ =>
          match op calls with
          | .ok v =>
              { outcome := .ok v, opCalls := calls + 1,
                delays := delays ++ [d] }
          | .error e =>
            match handleFailure cfg sr attempt e with
            | .thrown e2 =>
                { outcome := .error e2, opCalls := calls + 1,
                  delays := delays ++ [d] }
            | .continueRetry e2 =>
                withRetryAux cfg op sr fuel (attempt + 1) (some e2)
                  (calls + 1) (delays ++ [d])

/-- `withRetry` from `retry.service.ts`: run `op` under the exponential
backoff loop, using `shouldRetry` when configured and `isTransientError`
otherwise. -/
def withRetry {α : Type} (cfg : RetryConfig) (op : Nat → Except Err α) :
    RunResult α :=
  withRetryAux cfg op (cfg.shouldRetry.getD isTransientError)
    (cfg.maxRetries + 1) 0 none 0 []

/-- `RetryResult` from `retry.types.ts`. -/
structure RetryResult (α : Type) where
  success : Bool
  result : Option α := none
  error : Option Err := none
  attempts : Nat
  deriving Repr

/-- `withRetrySafe` from `retry.service.ts`: wrap `withRetry`, counting
invocations of the operation, and return a result object instead of
throwing. -/
def withRetrySafe {α : Type} (cfg : RetryConfig) (op : Nat → Except Err α) :
    RetryResult α :=
  let r := withRetry cfg op
  match r.outcome with
  | .ok v => { success := true, result := some v, attempts := r.opCalls }
  | .error e => { success := false, error := some e, attempts := r.opCalls }

/-- `CapturedImage` from `types/index.ts`: a deliverable item, identified by
its camera location label, carrying the base64 image payload. -/
structure CapturedImage where
  location : String
  base64 : String
  deriving DecidableEq, Repr

/-- The `for (let i = 0; i < images.length; i += maxPerBatch)` loop of
`batchImages` in `media-handler.ts`. `fuel` bounds the number of iterations
still modelled; a loop that has not exited within the fuel yields `none`
(for every positive capacity `images.length + 1` iterations always suffice,
see `batchImages_pos_spec`; for capacity `0` and a non-empty input no amount
of fuel suffices, see `batchImagesAux_zero_cap`). -/
def batchImagesAux (images : List CapturedImage) (maxPerBatch : Nat) :
    Nat → Nat → Option (List (List CapturedImage))
  | 0, i => if i < images.length then none else some []
  | fuel + 1, i =>
      if i < images.length then
        match batchImagesAux images maxPerBatch fuel (i + maxPerBatch) with
        | none => none
        | some rest => some (((images.drop i).take maxPerBatch) :: rest)
      else some []

/-- `batchImages` from `media-handler.ts` (default `maxPerBatch = 10`):
split images into contiguous batches of `slice(i, i + maxPerBatch)`. -/
def batchImages (images : List CapturedImage) (maxPerBatch : Nat) :
    Option (List (List CapturedImage)) :=
  batchImagesAux images maxPerBatch (images.length + 1) 0

/-- `ExecutionStatus` from the orchestrator `index.ts`. -/
structure ExecutionStatus where
  captureSuccess : Bool
  analysisSuccess : Bool
  telegramSuccess : Bool
  deriving DecidableEq, Repr

/-- `determineExitCode` from the orchestrator `index.ts`. -/
def determineExitCode (status : ExecutionStatus) : Nat :=
  if status.captureSuccess && status.analysisSuccess && status.telegramSuccess
  then 0
  else if !status.captureSuccess || !status.analysisSuccess then 2
  else if status.captureSuccess && status.analysisSuccess &&
      !status.telegramSuccess then 1
  else 2

/-- The character class kept by the first `replace` of `sanitizeFilename` in
`fallback.ts` (regex `[^a-z0-9_\-. ]` with the `i` flag). -/
def keepChar (c : Char) : Bool :=
  c.isAlpha || c.isDigit || c == '_' || c == '-' || c == '.' || c == ' '

/-- Second `replace` of `sanitizeFilename`: each maximal run of whitespace
becomes a single underscore (after the first `replace`, space is the only
whitespace character left). -/
def collapseSpaces : List Char → List Char
  | [] => []
  | [c] => if c == ' ' then ['_'] else [c]
  | c1 :: c2 :: rest =>
      if c1 == ' ' && c2 == ' ' then collapseSpaces (c2 :: rest)
      else (if c1 == ' ' then '_' else c1) :: collapseSpaces (c2 :: rest)

/-- `sanitizeFilename` from `fallback.ts`: replace disallowed characters by
underscores, collapse whitespace runs to single underscores, truncate to 100
characters. -/
def sanitizeFilename (filename : String) : String :=
  String.mk ((collapseSpaces (filename.toList.map fun c =>
    if keepChar c then c else '_')).take 100)

/-- The image artifact filename `"${i + 1}_${sanitizeFilename(location)}.png"`
built by `saveFailedReport` for the item at 0-based position `i`. -/
def imageFilenameAt (i : Nat) (img : CapturedImage) : String :=
  toString (i + 1) ++ "_" ++ sanitizeFilename img.location ++ ".png"

/-- One entry of `images_metadata.json` written by `saveFailedReport`. -/
structure ImageMeta where
  index : Nat
  location : String
  filename : String
  deriving DecidableEq, Repr

/-- The metadata entries pushed by the image loop of `saveFailedReport`,
starting at 0-based position `i0`. -/
def imageEntries (images : List CapturedImage) (i0 : Nat) : List ImageMeta :=
  match images with
  | [] => []
  | img :: rest =>
      { index := i0 + 1, location := img.location,
        filename := imageFilenameAt i0 img } :: imageEntries rest (i0 + 1)

/-- The `(filename, payload)` image artifacts written by the image loop of
`saveFailedReport`, starting at 0-based position `i0`. -/
def imageFileEntries (images : List CapturedImage) (i0 : Nat) :
    List (String × String) :=
  match images with
  | [] => []
  | img :: rest =>
      (imageFilenameAt i0 img, img.base64) :: imageFileEntries rest (i0 + 1)

/-- The `error.log` content written by `saveFailedReport` (the lines joined
with newlines; `ts` is the run's clock reading). -/
def errorLogText (ts : String) (e : Err) : String :=
  "Timestamp: " ++ ts ++ "\n" ++ "Error: " ++ e.message ++ "\n" ++
  "Stack: " ++ e.stack ++ "\n" ++ "\n" ++
  "This report was saved locally because it could not be sent to Telegram." ++
  "\n" ++ "You can manually review the analysis and images in this directory."

/-- The durable container created by one call of `saveFailedReport` in
`fallback.ts`: the analysis text, the error log, the ordered image artifacts
and the metadata index. -/
structure FailedReport where
  analysisText : String
  errorLog : String
  imageFiles : List (String × String)
  metadata : List ImageMeta
  deriving DecidableEq, Repr

/-- The content written by `saveFailedReport(analysis, images, error)` into
its timestamped report directory. -/
def mkFailedReport (ts : String) (analysis : String)
    (images : List CapturedImage) (e : Err) : FailedReport :=
  { analysisText := analysis
  , errorLog := errorLogText ts e
  , imageFiles := imageFileEntries images 0
  , metadata := imageEntries images 0 }

/-- The retry configuration `retryConfigs.telegram` from `retry.config.ts`,
with the logging `onRetry` observer the Telegram service installs (the
observer only logs, it does not throw). -/
def telegramRetryCfg : RetryConfig :=
  { maxRetries := 3, initialDelayMs := 120000, backoffMultiplier := 2,
    onRetry := some fun _ _ _ => .ok () }

/-- One execution of `TelegramService.sendWeatherReport`: its outcome plus
the per-batch `withRetrySafe` results. -/
structure SendReportRun where
  outcome : Except Err Unit
  batchResults : List (RetryResult Unit)
  deriving Repr

/-- `TelegramService.sendWeatherReport` from `telegram.service.ts`: split the
images into batches of 10; send each batch under `withRetrySafe` (a batch
whose retries are exhausted is logged, notified best-effort, and skipped);
then send the analysis text under the throwing `withRetry` — only the text
send's final failure escapes. `mediaOp b k` is the outcome of the `k`-th
invocation of `sendMediaGroup` for batch `b`; `textOp k` the outcome of the
`k`-th invocation of `sendMessage` for the analysis text. -/
def sendWeatherReportModel (images : List CapturedImage)
    (mediaOp : Nat → Nat → Except Err Unit) (textOp : Nat → Except Err Unit) :
    SendReportRun :=
  let batches := (batchImages images 10).getD []
  let batchResults := batches.mapIdx fun bIdx _ =>
    withRetrySafe telegramRetryCfg (mediaOp bIdx)
  match (withRetry telegramRetryCfg textOp).outcome with
  | .ok _ => { outcome := .ok (), batchResults := batchResults }
  | .error e => { outcome := .error e, batchResults := batchResults }

/-- JS `String.prototype.trim`: drop whitespace from both ends. -/
def trimStr (s : String) : String :=
  String.mk
    (((s.toList.dropWhile Char.isWhitespace).reverse.dropWhile
      Char.isWhitespace).reverse)

/-- `generateFallbackMessage` from `prompts/weather-analysis.ts`. -/
def generateFallbackMessage (dayName : String) : String :=
  "Maaf! Kami tidak bisa menganalisis kondisi cuaca untuk hari ini (" ++
  dayName ++
  ") di Kabupaten Banjar, Martapura karena ada kendala teknis. Silakan cek lagi nanti untuk update cuaca!"

/-- The tail of `capture.service.ts` `main` (a.k.a. `captureAndAnalyze`):
given the outcome of the browser capture phase (`capturedImages`) and of the
retried AI call (`aiResult`), throw when no image was captured, substitute
the deterministic fallback text when the AI call failed, and return the
trimmed analysis with the images. -/
def captureAndAnalyzeModel (capturedImages : Except Err (List CapturedImage))
    (aiResult : Except Err String) (dayName : String) :
    Except Err (String × List CapturedImage) :=
  match capturedImages with
  | .error e => .error e
  | .ok imgs =>
      if imgs.length = 0 then .error { message := "No images were captured" }
      else
        match aiResult with
        | .ok analysis => .ok (trimStr analysis, imgs)
        | .error _ => .ok (trimStr (generateFallbackMessage dayName), imgs)

/-- Everything the orchestrator run makes observable: the final status, the
process exit code, and the fallback reports saved during the run. -/
structure RunOutcome where
  status : ExecutionStatus
  exitCode : Nat
  saved : List FailedReport
  deriving DecidableEq, Repr

/-- `run` from the orchestrator `index.ts`: step 1 capture-and-analyze (on
throw both `captureSuccess` and `analysisSuccess` stay false); step 2 send to
Telegram only when an analysis text and at least one image exist — on a send
failure, save the report locally (`saveOk` tells whether the local save
itself succeeds; its own failure is swallowed); step 3 compute the exit code
from the status. `ts` is the run's clock reading used for the report
directory content. -/
def runPipeline (ts : String)
    (captureResult : Except Err (String × List CapturedImage))
    (send : String → List CapturedImage → Except Err Unit) (saveOk : Bool) :
    RunOutcome :=
  match captureResult with
  | .error _ =>
      let status : ExecutionStatus :=
        { captureSuccess := false, analysisSuccess := false,
          telegramSuccess := false }
      { status := status, exitCode := determineExitCode status, saved := [] }
  | .ok (analysis, images) =>
      if analysis ≠ "" ∧ 0 < images.length then
        match send analysis images with
        | .ok _ =>
            let status : ExecutionStatus :=
              { captureSuccess := true, analysisSuccess := true,
                telegramSuccess := true }
            { status := status, exitCode := determineExitCode status,
              saved := [] }
        | .error e =>
            let status : ExecutionStatus :=
              { captureSuccess := true, analysisSuccess := true,
                telegramSuccess := false }
            { status := status, exitCode := determineExitCode status,
              saved :=
                if saveOk then [mkFailedReport ts analysis images e] else [] }
      else
        let status : ExecutionStatus :=
          { captureSuccess := true, analysisSuccess := true,
            telegramSuccess := false }
        { status := status, exitCode := determineExitCode status, saved := [] }

/-! ### Concrete fixtures used by witnesses and counterexamples -/

def errTimeout : Err := { message := "timeout" }

def opAlwaysTimeout : Nat → Except Err Unit := fun _ => .error errTimeout

def errBoth : Err := { message := "500 invalid" }

def opAlwaysBoth : Nat → Except Err Unit := fun _ => .error errBoth

def errUnmatched : Err := { message := "mysterious glitch" }

def opAlwaysUnmatched : Nat → Except Err Unit := fun _ => .error errUnmatched

def errAuth : Err := { message := "401 Unauthorized: invalid token" }

def opAuthFail : Nat → Except Err Unit := fun _ => .error errAuth

def err503 : Err := { message := "Error: 503 Service Unavailable" }

def errBoom : Err := { message := "boom" }

def cfgZero : RetryConfig :=
  { maxRetries := 0, initialDelayMs := 1000, backoffMultiplier := 2 }

def cfg2000 : RetryConfig :=
  { maxRetries := 3, initialDelayMs := 2000, backoffMultiplier := 2 }

def cfgFive : RetryConfig :=
  { maxRetries := 5, initialDelayMs := 2000, backoffMultiplier := 2 }

def cfgBase : RetryConfig :=
  { maxRetries := 1, initialDelayMs := 7, backoffMultiplier := 2 }

def cfgThree : RetryConfig :=
  { maxRetries := 3, initialDelayMs := 5, backoffMultiplier := 2 }

def cfgObsBoom : RetryConfig :=
  { maxRetries := 1, initialDelayMs := 10, backoffMultiplier := 2,
    onRetry := some fun _ _ _ => .error errBoom }

def cfgObsQuiet : RetryConfig :=
  { maxRetries := 1, initialDelayMs := 10, backoffMultiplier := 2 }

def cfgObsOk : RetryConfig :=
  { maxRetries := 2, initialDelayMs := 3, backoffMultiplier := 2,
    onRetry := some fun _ _ _ => .ok () }

def demoImg : CapturedImage := { location := "A. Yani KM 5", base64 := "QUJD" }

/-! ### Generic facts about the retry loop -/

lemma withRetryAux_zero_step {α : Type} (cfg : RetryConfig)
    (op : Nat → Except Err α) (sr : Err → Bool) (f : Nat)
    (lastErr : Option Err) (calls : Nat) (delays : List Nat) :
    withRetryAux cfg op sr (f + 1) 0 lastErr calls delays =
      match op calls with
      | .ok v => { outcome := .ok v, opCalls := calls + 1, delays := delays }
      | .error e =>
        match handleFailure cfg sr 0 e with
        | .thrown e2 =>
            { outcome := .error e2, opCalls := calls + 1, delays := delays }
        | .continueRetry e2 =>
            withRetryAux cfg op sr f 1 (some e2) (calls + 1) delays := by
  rfl

lemma withRetryAux_succ_step {α : Type} (cfg : RetryConfig)
    (op : Nat → Except Err α) (sr : Err → Bool) (f a : Nat)
    (lastErr : Option Err) (calls : Nat) (delays : List Nat) :
    withRetryAux cfg op sr (f + 1) (a + 1) lastErr calls delays =
      match obsCall cfg (a + 1) (lastErr.getD opFailedErr)
          (cfg.initialDelayMs * cfg.backoffMultiplier ^ a) with
      | .error e =>
        match handleFailure cfg sr (a + 1) e with
        | .thrown e2 =>
            { outcome := .error e2, opCalls := calls, delays := delays }
        | .continueRetry e2 =>
            withRetryAux cfg op sr f (a + 2) (some e2) calls delays
      | .ok _ =>
        match op calls with
        | .ok v =>
            { outcome := .ok v, opCalls := calls + 1,
              delays := delays ++ [cfg.initialDelayMs * cfg.backoffMultiplier ^ a] }
        | .error e =>
          match handleFailure cfg sr (a + 1) e with
          | .thrown e2 =>
              { outcome := .error e2, opCalls := calls + 1,
                delays := delays ++ [cfg.initialDelayMs * cfg.backoffMultiplier ^ a] }
          | .continueRetry e2 =>
              withRetryAux cfg op sr f (a + 2) (some e2) (calls + 1)
                (delays ++ [cfg.initialDelayMs * cfg.backoffMultiplier ^ a]) := by
  rfl

lemma handleFailure_retry_last (cfg : RetryConfig) (sr : Err → Bool)
    (attempt : Nat) (e : Err) (h : sr e = true)
    (hm : attempt = cfg.maxRetries) :
    handleFailure cfg sr attempt e = .thrown e := by
  simp [handleFailure, h, hm]

lemma handleFailure_retry_cont (cfg : RetryConfig) (sr : Err → Bool)
    (attempt : Nat) (e : Err) (h : sr e = true)
    (hm : ¬ attempt = cfg.maxRetries) :
    handleFailure cfg sr attempt e = .continueRetry e := by
  simp [handleFailure, h, hm]

lemma handleFailure_perm (cfg : RetryConfig) (sr : Err → Bool)
    (attempt : Nat) (e : Err) (h : sr e = false) :
    handleFailure cfg sr attempt e = .thrown e := by
  simp [handleFailure, h]

lemma withRetryAux_calls_le {α : Type} (cfg : RetryConfig)
    (op : Nat → Except Err α) (sr : Err → Bool) :
    ∀ (fuel attempt : Nat) (lastErr : Option Err) (calls : Nat)
      (delays : List Nat),
      calls ≤ (withRetryAux cfg op sr fuel attempt lastErr calls delays).opCalls := by
  intro fuel
  induction fuel with
  | zero => intro attempt lastErr calls delays; simp [withRetryAux]
  | succ f ih =>
    intro attempt lastErr calls delays
    cases attempt with
    | zero =>
      rw [withRetryAux_zero_step]
      split
      · exact Nat.le_succ _
      · split
        · exact Nat.le_succ _
        · exact le_trans (Nat.le_succ _) (ih _ _ _ _)
    | succ a =>
      rw [withRetryAux_succ_step]
      split
      · split
        · exact le_refl _
        · exact ih _ _ _ _
      · split
        · exact Nat.le_succ _
        · split
          · exact Nat.le_succ _
          · exact le_trans (Nat.le_succ _) (ih _ _ _ _)

lemma withRetryAux_allFail {α : Type} (cfg : RetryConfig)
    (op : Nat → Except Err α) (sr : Err → Bool) (errOf : Nat → Err)
    (hop : ∀ k, op k = .error (errOf k)) (hsr : ∀ k, sr (errOf k) = true)
    (hobs : ∀ a e d, obsCall cfg a e d = .ok ()) :
    ∀ (fuel attempt calls : Nat) (lastErr : Option Err) (delays : List Nat),
      0 < fuel → attempt + fuel = cfg.maxRetries + 1 →
      (withRetryAux cfg op sr fuel attempt lastErr calls delays).outcome =
          .error (errOf (calls + fuel - 1)) ∧
      (withRetryAux cfg op sr fuel attempt lastErr calls delays).opCalls =
          calls + fuel := by
  intro fuel
  induction fuel with
  | zero => intro attempt calls lastErr delays h0 _; omega
  | succ f ih =>
    intro attempt calls lastErr delays _ hsum
    by_cases hm : attempt = cfg.maxRetries
    · have hf0 : f = 0 := by omega
      subst hf0
      cases attempt with
      | zero =>
        rw [withRetryAux_zero_step]
        simp only [hop calls,
          handleFailure_retry_last cfg sr 0 (errOf calls) (hsr calls) hm]
        constructor <;> simp
      | succ a =>
        rw [withRetryAux_succ_step]
        simp only [hobs, hop calls,
          handleFailure_retry_last cfg sr (a + 1) (errOf calls) (hsr calls) hm]
        constructor <;> simp
    · have hf1 : 0 < f := by omega
      cases attempt with
      | zero =>
        rw [withRetryAux_zero_step]
        simp only [hop calls,
          handleFailure_retry_cont cfg sr 0 (errOf calls) (hsr calls) hm]
        have h := ih 1 (calls + 1) (some (errOf calls)) delays hf1 (by omega)
        have h1 : (withRetryAux cfg op sr f 1 (some (errOf calls)) (calls + 1)
            delays).outcome = .error (errOf (calls + (f + 1) - 1)) := by
          rw [h.1, show calls + 1 + f - 1 = calls + (f + 1) - 1 from by omega]
        have h2 : (withRetryAux cfg op sr f 1 (some (errOf calls)) (calls + 1)
            delays).opCalls = calls + (f + 1) := by
          rw [h.2]
          omega
        exact ⟨h1, h2⟩
      | succ a =>
        rw [withRetryAux_succ_step]
        simp only [hobs, hop calls,
          handleFailure_retry_cont cfg sr (a + 1) (errOf calls) (hsr calls) hm]
        have h := ih (a + 2) (calls + 1) (some (errOf calls))
          (delays ++ [cfg.initialDelayMs * cfg.backoffMultiplier ^ a]) hf1
          (by omega)
        have h1 : (withRetryAux cfg op sr f (a + 2) (some (errOf calls))
            (calls + 1)
            (delays ++ [cfg.initialDelayMs * cfg.backoffMultiplier ^ a])).outcome =
            .error (errOf (calls + (f + 1) - 1)) := by
          rw [h.1, show calls + 1 + f - 1 = calls + (f + 1) - 1 from by omega]
        have h2 : (withRetryAux cfg op sr f (a + 2) (some (errOf calls))
            (calls + 1)
            (delays ++ [cfg.initialDelayMs * cfg.backoffMultiplier ^ a])).opCalls =
            calls + (f + 1) := by
          rw [h.2]
          omega
        exact ⟨h1, h2⟩

lemma withRetryAux_delays {α : Type} (cfg : RetryConfig)
    (op : Nat → Except Err α) (sr : Err → Bool)
    (hobs : ∀ a e d, obsCall cfg a e d = .ok ()) :
    ∀ (fuel attempt : Nat) (lastErr : Option Err) (calls : Nat)
      (delays : List Nat), 1 ≤ attempt →
      (withRetryAux cfg op sr fuel attempt lastErr calls delays).delays =
        delays ++
          (List.range' (attempt - 1)
            ((withRetryAux cfg op sr fuel attempt lastErr calls delays).opCalls
              - calls)).map
            (fun i => cfg.initialDelayMs * cfg.backoffMultiplier ^ i) := by
  intro fuel
  induction fuel with
  | zero => intro attempt lastErr calls delays h1; simp [withRetryAux]
  | succ f ih =>
    intro attempt lastErr calls delays h1
    obtain ⟨a, rfl⟩ : ∃ a, attempt = a + 1 := ⟨attempt - 1, by omega⟩
    rw [withRetryAux_succ_step]
    simp only [hobs]
    rcases hop0 : op calls with e | v
    · rcases hhf : handleFailure cfg sr (a + 1) e with e2 | e2
      · simp [hhf, List.range', show calls + 1 - calls = 1 from by omega]
      · simp only [hhf]
        have hle := withRetryAux_calls_le cfg op sr f (a + 2) (some e2)
          (calls + 1)
          (delays ++ [cfg.initialDelayMs * cfg.backoffMultiplier ^ a])
        have hrec := ih (a + 2) (some e2) (calls + 1)
          (delays ++ [cfg.initialDelayMs * cfg.backoffMultiplier ^ a])
          (by omega)
        rw [hrec]
        rw [show (withRetryAux cfg op sr f (a + 2) (some e2) (calls + 1)
            (delays ++ [cfg.initialDelayMs * cfg.backoffMultiplier ^ a])).opCalls
            - calls =
            ((withRetryAux cfg op sr f (a + 2) (some e2) (calls + 1)
              (delays ++ [cfg.initialDelayMs * cfg.backoffMultiplier ^ a])).opCalls
              - (calls + 1)) + 1 from by omega]
        rw [show a + 2 - 1 = a + 1 from rfl, show a + 1 - 1 = a from rfl,
          List.range'_succ]
        simp
    · simp [List.range', show calls + 1 - calls = 1 from by omega]

lemma withRetryAux_obs_irrel {α : Type} (cfg : RetryConfig)
    (op : Nat → Except Err α) (sr : Err → Bool)
    (hobs : ∀ a e d, obsCall cfg a e d = .ok ()) :
    ∀ (fuel attempt : Nat) (lastErr : Option Err) (calls : Nat)
      (delays : List Nat),
      withRetryAux cfg op sr fuel attempt lastErr calls delays =
        withRetryAux { cfg with onRetry := none } op sr fuel attempt lastErr
          calls delays := by
  intro fuel
  induction fuel with
  | zero => intro attempt lastErr calls delays; rfl
  | succ f ih =>
    intro attempt lastErr calls delays
    cases attempt with
    | zero =>
      rw [withRetryAux_zero_step, withRetryAux_zero_step]
      rcases hop0 : op calls with e | v
      · dsimp only
        rw [show handleFailure { cfg with onRetry := none } sr 0 e =
            handleFailure cfg sr 0 e from rfl]
        rcases hhf : handleFailure cfg sr 0 e with e2 | e2
        · rfl
        · dsimp only
          exact ih 1 (some e2) (calls + 1) delays
      · rfl
    | succ a =>
      rw [withRetryAux_succ_step, withRetryAux_succ_step, hobs,
        show obsCall { cfg with onRetry := none } (a + 1)
          (lastErr.getD opFailedErr)
          (RetryConfig.initialDelayMs { cfg with onRetry := none } *
            RetryConfig.backoffMultiplier { cfg with onRetry := none } ^ a) =
          .ok () from rfl]
      dsimp only
      rcases hop0 : op calls with e | v
      · dsimp only
        rw [show handleFailure { cfg with onRetry := none } sr (a + 1) e =
            handleFailure cfg sr (a + 1) e from rfl]
        rcases hhf : handleFailure cfg sr (a + 1) e with e2 | e2
        · rfl
        · dsimp only
          exact ih (a + 2) (some e2) (calls + 1)
            (delays ++ [cfg.initialDelayMs * cfg.backoffMultiplier ^ a])
      · rfl

lemma withRetry_allFail {α : Type} (cfg : RetryConfig)
    (op : Nat → Except Err α) (errOf : Nat → Err)
    (hobs : ∀ a e d, obsCall cfg a e d = .ok ())
    (hop : ∀ k, op k = .error (errOf k))
    (hsr : ∀ k, cfg.shouldRetry.getD isTransientError (errOf k) = true) :
    (withRetry cfg op).outcome = .error (errOf cfg.maxRetries) ∧
    (withRetry cfg op).opCalls = cfg.maxRetries + 1 := by
  have h := withRetryAux_allFail cfg op (cfg.shouldRetry.getD isTransientError)
    errOf hop hsr hobs (cfg.maxRetries + 1) 0 0 none [] (by omega) (by omega)
  unfold withRetry
  constructor
  · rw [h.1, show 0 + (cfg.maxRetries + 1) - 1 = cfg.maxRetries from by omega]
  · rw [h.2]
    omega

lemma withRetry_abortFirst {α : Type} (cfg : RetryConfig)
    (op : Nat → Except Err α) (e : Err) (hop : op 0 = .error e)
    (hsr : cfg.shouldRetry.getD isTransientError e = false) :
    withRetry cfg op = { outcome := .error e, opCalls := 1, delays := [] } := by
  unfold withRetry
  rw [withRetryAux_zero_step]
  simp only [hop,
    handleFailure_perm cfg (cfg.shouldRetry.getD isTransientError) 0 e hsr]

lemma withRetry_delays {α : Type} (cfg : RetryConfig)
    (op : Nat → Except Err α)
    (hobs : ∀ a e d, obsCall cfg a e d = .ok ()) :
    (withRetry cfg op).delays =
      (List.range ((withRetry cfg op).opCalls - 1)).map
        (fun i => cfg.initialDelayMs * cfg.backoffMultiplier ^ i) := by
  unfold withRetry
  rw [withRetryAux_zero_step]
  rcases hop0 : op 0 with e | v
  · rcases hhf : handleFailure cfg (cfg.shouldRetry.getD isTransientError) 0 e
        with e2 | e2
    · simp [hhf]
    · simp only [hhf]
      have h := withRetryAux_delays cfg op
        (cfg.shouldRetry.getD isTransientError) hobs cfg.maxRetries 1
        (some e2) 1 [] (by omega)
      rw [h, List.range_eq_range']
      simp
  · simp

/-- Claim C1: for every policy with `maxRetries = n` whose observer does not
throw, and every operation failing on every invocation with failures the
policy classifies as retryable (transient), `withRetry` invokes the
operation exactly `n + 1` times and throws the last failure, and
`withRetrySafe` returns `success = false` with `attempts = n + 1` (so
`maxRetries = 0` yields exactly one attempt and no retry). -/
theorem withRetry_exhaustion_C1 {α : Type} (cfg : RetryConfig)
    (op : Nat → Except Err α) (errOf : Nat → Err)
    (hobs : ∀ a e d, obsCall cfg a e d = .ok ())
    (hop : ∀ k, op k = .error (errOf k))
    (hsr : ∀ k, cfg.shouldRetry.getD isTransientError (errOf k) = true) :
    (withRetry cfg op).outcome = .error (errOf cfg.maxRetries) ∧
    (withRetry cfg op).opCalls = cfg.maxRetries + 1 ∧
    (withRetrySafe cfg op).success = false ∧
    (withRetrySafe cfg op).attempts = cfg.maxRetries + 1 ∧
    (withRetrySafe cfg op).error = some (errOf cfg.maxRetries) := by
  have h := withRetry_allFail cfg op errOf hobs hop hsr
  have hsafe : withRetrySafe cfg op =
      { success := false, error := some (errOf cfg.maxRetries),
        attempts := cfg.maxRetries + 1 } := by
    simp [withRetrySafe, h.1, h.2]
  exact ⟨h.1, h.2, by rw [hsafe], by rw [hsafe], by rw [hsafe]⟩

/-- Witness for C1 at the `maxRetries = 0` edge case: exactly one attempt,
no retry. -/
theorem withRetry_exhaustion_C1_w :
    (withRetry cfgZero opAlwaysTimeout).opCalls = 1 ∧
    (withRetrySafe cfgZero opAlwaysTimeout).success = false ∧
    (withRetrySafe cfgZero opAlwaysTimeout).attempts = 1 := by
  have h := withRetry_exhaustion_C1 cfgZero opAlwaysTimeout
    (fun _ => errTimeout) (fun _ _ _ => rfl) (fun k => rfl) (fun k => rfl)
  exact ⟨h.2.1, h.2.2.1, h.2.2.2.1⟩

/-- Claim C2: in every execution with a non-throwing observer the delays
slept are, in order, `initialDelay * multiplier ^ 0, ^ 1, ...`: the delay
before attempt `k` (for `2 ≤ k`) is `initialDelay * multiplier ^ (k - 2)`,
and attempt 1 runs with no preceding delay (the delay list has exactly one
entry fewer than the attempt count). -/
theorem withRetry_backoff_C2 {α : Type} (cfg : RetryConfig)
    (op : Nat → Except Err α)
    (hobs : ∀ a e d, obsCall cfg a e d = .ok ()) :
    (withRetry cfg op).delays =
      (List.range ((withRetry cfg op).opCalls - 1)).map
        (fun i => cfg.initialDelayMs * cfg.backoffMultiplier ^ i) ∧
    ∀ k, 2 ≤ k → k ≤ (withRetry cfg op).opCalls →
      (withRetry cfg op).delays[k - 2]? =
        some (cfg.initialDelayMs * cfg.backoffMultiplier ^ (k - 2)) := by
  refine ⟨withRetry_delays cfg op hobs, ?_⟩
  intro k hk2 hkle
  rw [withRetry_delays cfg op hobs, List.getElem?_map,
    List.getElem?_range (by omega)]
  rfl

/-- Witness for C2: `initialDelay = 2000`, `multiplier = 2` gives delays
2000, 4000, 8000 before attempts 2, 3, 4. -/
theorem withRetry_backoff_C2_w :
    (withRetry cfg2000 opAlwaysTimeout).delays = [2000, 4000, 8000] ∧
    (withRetry cfg2000 opAlwaysTimeout).delays =
      (List.range ((withRetry cfg2000 opAlwaysTimeout).opCalls - 1)).map
        (fun i => cfg2000.initialDelayMs * cfg2000.backoffMultiplier ^ i) :=
  ⟨rfl, (withRetry_backoff_C2 cfg2000 opAlwaysTimeout (fun _ _ _ => rfl)).1⟩

/-- Claim C3: whatever the remaining budget, an operation whose first
failure the policy's classifier rejects as non-retryable (permanent) is
attempted exactly once: `withRetry` throws that failure immediately,
sleeping no delay and never invoking the operation again. -/
theorem withRetry_permanentAbort_C3 {α : Type} (cfg : RetryConfig)
    (op : Nat → Except Err α) (e : Err) (hop : op 0 = .error e)
    (hsr : cfg.shouldRetry.getD isTransientError e = false) :
    withRetry cfg op = { outcome := .error e, opCalls := 1, delays := [] } :=
  withRetry_abortFirst cfg op e hop hsr

/-- Witness for C3: a permanent failure under a `maxRetries = 5` policy. -/
theorem withRetry_permanentAbort_C3_w :
    withRetry cfgFive opAuthFail =
      { outcome := .error errAuth, opCalls := 1, delays := [] } :=
  withRetry_permanentAbort_C3 cfgFive opAuthFail errAuth rfl rfl

/-- Counterexample to claim C4: the failure message "500 invalid" matches
both a transient pattern ("500") and a permanent pattern ("invalid"), yet
the engine retries it (2 attempts with a backoff sleep under a
`maxRetries = 1` policy) instead of aborting without retry: transient
matching, not permanent precedence, decides. -/
theorem classifier_precedence_C4_cex :
    isTransientError errBoth = true ∧ isPermanentError errBoth = true ∧
    (withRetry cfgBase opAlwaysBoth).opCalls = 2 ∧
    (withRetry cfgBase opAlwaysBoth).delays = [7] ∧
    (withRetry cfgBase opAlwaysBoth).outcome = .error errBoth :=
  ⟨rfl, rfl, rfl, rfl, rfl⟩

/-- Claim C4 as amended: under the default classifier the engine consults
only the transient patterns — a persistent failure matching a transient
pattern is retried to exhaustion even when it also matches a permanent
pattern; only failures matching no transient pattern abort. The claim's two
examples do hold: "401 Unauthorized: invalid token" matches no transient
pattern (and is `isPermanentError`), while "Error: 503 Service Unavailable"
is transient. -/
theorem classifier_precedence_C4_amended {α : Type} (cfg : RetryConfig)
    (op : Nat → Except Err α) (e : Err)
    (hdef : cfg.shouldRetry = none)
    (hobs : ∀ a e2 d, obsCall cfg a e2 d = .ok ())
    (hop : ∀ k, op k = .error e)
    (htrans : isTransientError e = true) :
    (withRetry cfg op).opCalls = cfg.maxRetries + 1 ∧
    (withRetry cfg op).outcome = .error e ∧
    isTransientError errAuth = false ∧ isPermanentError errAuth = true ∧
    isTransientError err503 = true := by
  have hsr : cfg.shouldRetry.getD isTransientError e = true := by
    rw [hdef]
    exact htrans
  have h := withRetry_allFail cfg op (fun _ => e) hobs hop (fun _ => hsr)
  exact ⟨h.2, h.1, rfl, rfl, rfl⟩

/-- Witness for the amended C4. -/
theorem classifier_precedence_C4_w :
    (withRetry cfgBase opAlwaysBoth).opCalls = 2 ∧
    (withRetry cfgBase opAlwaysBoth).outcome = .error errBoth ∧
    isTransientError errAuth = false := by
  have h := classifier_precedence_C4_amended cfgBase opAlwaysBoth errBoth rfl
    (fun _ _ _ => rfl) (fun k => rfl) rfl
  exact ⟨h.1, h.2.1, h.2.2.1⟩

/-- Counterexample to claim C5: the failure message "mysterious glitch"
matches no transient and no permanent pattern, yet the engine does not
retry it — it aborts after a single attempt with no backoff sleep (the
claim predicted 4 attempts under a `maxRetries = 3` policy). -/
theorem unmatched_default_C5_cex :
    isTransientError errUnmatched = false ∧
    isPermanentError errUnmatched = false ∧
    (withRetry cfgThree opAlwaysUnmatched).opCalls = 1 ∧
    (withRetry cfgThree opAlwaysUnmatched).outcome = .error errUnmatched ∧
    (withRetry cfgThree opAlwaysUnmatched).delays = [] :=
  ⟨rfl, rfl, rfl, rfl, rfl⟩

/-- Claim C5 as amended: the classifier is total and pure, but the engine's
default retry decision is `isTransientError` alone, so an unmatched failure
defaults to non-retryable: the engine aborts on its first occurrence,
consuming no backoff budget. -/
theorem unmatched_default_C5_amended {α : Type} (cfg : RetryConfig)
    (op : Nat → Except Err α) (e : Err) (hdef : cfg.shouldRetry = none)
    (hop : op 0 = .error e) (ht : isTransientError e = false) :
    withRetry cfg op = { outcome := .error e, opCalls := 1, delays := [] } := by
  apply withRetry_abortFirst cfg op e hop
  rw [hdef]
  exact ht

/-- Witness for the amended C5. -/
theorem unmatched_default_C5_w :
    withRetry cfgThree opAlwaysUnmatched =
      { outcome := .error errUnmatched, opCalls := 1, delays := [] } :=
  unmatched_default_C5_amended cfgThree opAlwaysUnmatched errUnmatched rfl rfl
    rfl

/-- Counterexample to claim C10: a throwing observer changes everything.
With the observer raising "boom", the run returns the observer's error
after one operation call and no sleep; with no observer the same operation
is invoked twice, one delay is slept, and the operation's own error is
thrown: the observer's exception propagated into the result and changed the
attempt count, the delays and the final outcome. -/
theorem observer_C10_cex :
    (withRetry cfgObsBoom opAlwaysTimeout).outcome = .error errBoom ∧
    (withRetry cfgObsBoom opAlwaysTimeout).opCalls = 1 ∧
    (withRetry cfgObsBoom opAlwaysTimeout).delays = [] ∧
    (withRetry cfgObsQuiet opAlwaysTimeout).outcome = .error errTimeout ∧
    (withRetry cfgObsQuiet opAlwaysTimeout).opCalls = 2 ∧
    (withRetry cfgObsQuiet opAlwaysTimeout).delays = [10] :=
  ⟨rfl, rfl, rfl, rfl, rfl, rfl⟩

/-- Claim C10 as amended: the observer is invoked synchronously just before
each backoff sleep, and as long as it does not throw it never affects
control flow — the run is identical to one with no observer installed. An
exception raised by the observer, however, is caught by the loop's failure
handler and treated as that attempt's failure, as the counterexample
shows. -/
theorem observer_C10_amended {α : Type} (cfg : RetryConfig)
    (op : Nat → Except Err α)
    (hobs : ∀ a e d, obsCall cfg a e d = .ok ()) :
    withRetry cfg op = withRetry { cfg with onRetry := none } op := by
  unfold withRetry
  exact withRetryAux_obs_irrel cfg op (cfg.shouldRetry.getD isTransientError)
    hobs (cfg.maxRetries + 1) 0 none 0 []

/-- Witness for the amended C10: an installed non-throwing observer leaves
the run unchanged. -/
theorem observer_C10_w :
    withRetry cfgObsOk opAlwaysTimeout =
      withRetry { cfgObsOk with onRetry := none } opAlwaysTimeout :=
  observer_C10_amended cfgObsOk opAlwaysTimeout (fun _ _ _ => rfl)

/-! ### Batch splitter -/

lemma batchImagesAux_pos (images : List CapturedImage) (cap : Nat)
    (hcap : 0 < cap) :
    ∀ (fuel i : Nat), images.length - i ≤ fuel * cap →
      ∃ bs, batchImagesAux images cap fuel i = some bs ∧
        bs.flatten = images.drop i ∧ ∀ b ∈ bs, b ≠ [] := by
  intro fuel
  induction fuel with
  | zero =>
    intro i hle
    have hi : ¬ i < images.length := by omega
    refine ⟨[], by simp [batchImagesAux, hi], ?_, by simp⟩
    simp [List.drop_eq_nil_iff.2 (by omega : images.length ≤ i)]
  | succ f ih =>
    intro i hle
    by_cases hi : i < images.length
    · have hmul : (f + 1) * cap = f * cap + cap := Nat.succ_mul f cap
      have hle2 : images.length - (i + cap) ≤ f * cap := by omega
      obtain ⟨rest, hrest, hflat, hne⟩ := ih (i + cap) hle2
      refine ⟨((images.drop i).take cap) :: rest, ?_, ?_, ?_⟩
      · simp [batchImagesAux, hi, hrest]
      · rw [List.flatten_cons, hflat]
        rw [show images.drop (i + cap) = (images.drop i).drop cap from by
          rw [List.drop_drop]]
        exact List.take_append_drop cap (images.drop i)
      · intro b hb
        rcases List.mem_cons.1 hb with hb | hb
        · subst hb
          intro hnil
          rcases List.take_eq_nil_iff.1 hnil with h | h
          · omega
          · exact absurd (List.drop_eq_nil_iff.1 h) (by omega)
        · exact hne b hb
    · refine ⟨[], by simp [batchImagesAux, hi], ?_, by simp⟩
      simp [List.drop_eq_nil_iff.2 (by omega : images.length ≤ i)]

lemma batchImages_pos_spec (images : List CapturedImage) (cap : Nat)
    (hcap : 0 < cap) :
    ∃ bs, batchImages images cap = some bs ∧ bs.flatten = images ∧
      (images = [] → bs = []) ∧ ∀ b ∈ bs, b ≠ [] := by
  have hmul : images.length ≤ images.length * cap :=
    Nat.le_mul_of_pos_right images.length hcap
  have hmul2 : (images.length + 1) * cap = images.length * cap + cap :=
    Nat.succ_mul images.length cap
  have hle : images.length - 0 ≤ (images.length + 1) * cap := by omega
  obtain ⟨bs, h1, h2, h3⟩ :=
    batchImagesAux_pos images cap hcap (images.length + 1) 0 hle
  refine ⟨bs, h1, by simpa using h2, ?_, h3⟩
  intro hnil
  rcases bs with _ | ⟨b, rest⟩
  · rfl
  · exfalso
    apply h3 b (by simp)
    have hflat : (b :: rest).flatten = [] := by
      subst hnil
      simpa using h2
    exact (List.flatten_eq_nil_iff.1 hflat) b (by simp)

lemma batchImagesAux_zero_cap (images : List CapturedImage)
    (h : images ≠ []) : ∀ fuel, batchImagesAux images 0 fuel 0 = none := by
  have hlen : 0 < images.length := List.length_pos.2 h
  intro fuel
  induction fuel with
  | zero => simp [batchImagesAux, hlen]
  | succ f ih => simp [batchImagesAux, hlen, ih]

/-- Counterexample to claim C6: with capacity 0 (a non-negative capacity)
and a non-empty input, the splitting loop `i += 0` never advances: it does
not terminate (no iteration bound suffices — shown here for the default
bound and for 1000 iterations), so it cannot return batches that
concatenate to the input. -/
theorem batch_split_C6_cex :
    batchImages [demoImg] 0 = none ∧
    batchImagesAux [demoImg] 0 1000 0 = none :=
  ⟨rfl, batchImagesAux_zero_cap [demoImg] (by simp) 1000⟩

/-- Claim C6 as amended: for every positive capacity the splitter
terminates and concatenating its batches in order reproduces the input
exactly — no reordering, duplication or loss — with no empty batch, and an
empty input yields no batches. (With capacity 0 and a non-empty input the
loop never terminates, as the counterexample shows; the code is only ever
called with the default capacity 10.) -/
theorem batch_split_C6_amended (images : List CapturedImage) (cap : Nat)
    (hcap : 0 < cap) :
    ∃ bs, batchImages images cap = some bs ∧ bs.flatten = images ∧
      (images = [] → bs = []) ∧ ∀ b ∈ bs, b ≠ [] :=
  batchImages_pos_spec images cap hcap

/-- Witness for the amended C6 at a concrete split of 3 items with
capacity 2. -/
theorem batch_split_C6_w :
    ∃ bs, batchImages [demoImg, demoImg, demoImg] 2 = some bs ∧
      bs.flatten = [demoImg, demoImg, demoImg] ∧
      ([demoImg, demoImg, demoImg] = ([] : List CapturedImage) → bs = []) ∧
      ∀ b ∈ bs, b ≠ [] :=
  batch_split_C6_amended [demoImg, demoImg, demoImg] 2 (by omega)

/-! ### Orchestrator exit codes -/

/-- Claim C7: the orchestrator maps the final three-stage status to the
process exit code as: all three stages ok gives 0, capture or analysis not
ok gives 2, delivery not ok with the first two ok gives 1; and when capture
fails the run's status is all-false, nothing is saved, and the exit code
is 2. -/
theorem exit_code_C7 :
    (∀ s : ExecutionStatus, s.captureSuccess = true →
        s.analysisSuccess = true → s.telegramSuccess = true →
        determineExitCode s = 0) ∧
    (∀ s : ExecutionStatus,
        s.captureSuccess = false ∨ s.analysisSuccess = false →
        determineExitCode s = 2) ∧
    (∀ s : ExecutionStatus, s.captureSuccess = true →
        s.analysisSuccess = true → s.telegramSuccess = false →
        determineExitCode s = 1) ∧
    (∀ (ts : String) (e : Err)
        (send : String → List CapturedImage → Except Err Unit)
        (saveOk : Bool),
        runPipeline ts (.error e) send saveOk =
          { status := ⟨false, false, false⟩, exitCode := 2, saved := [] }) := by
  refine ⟨?_, ?_, ?_, ?_⟩
  · intro s h1 h2 h3
    rcases s with ⟨a, b, c⟩
    cases a <;> cases b <;> cases c <;> simp_all [determineExitCode]
  · intro s h
    rcases s with ⟨a, b, c⟩
    cases a <;> cases b <;> cases c <;> simp_all [determineExitCode]
  · intro s h1 h2 h3
    rcases s with ⟨a, b, c⟩
    cases a <;> cases b <;> cases c <;> simp_all [determineExitCode]
  · intro ts e send saveOk
    rfl

/-- Witness for C7 at concrete statuses and a concrete failing capture. -/
theorem exit_code_C7_w :
    determineExitCode ⟨true, true, true⟩ = 0 ∧
    determineExitCode ⟨false, false, false⟩ = 2 ∧
    determineExitCode ⟨true, true, false⟩ = 1 ∧
    runPipeline "t0" (.error errTimeout) (fun _ _ => .ok ()) true =
      { status := ⟨false, false, false⟩, exitCode := 2, saved := [] } := by
  have h := exit_code_C7
  exact ⟨h.1 _ rfl rfl rfl, h.2.1 _ (Or.inl rfl), h.2.2.1 _ rfl rfl rfl,
    h.2.2.2 "t0" errTimeout (fun _ _ => .ok ()) true⟩

/-! ### Fallback report content -/

lemma imageEntries_map_location (images : List CapturedImage) :
    ∀ i0, (imageEntries images i0).map (fun m => m.location) =
      images.map (fun img => img.location) := by
  induction images with
  | nil => intro i0; rfl
  | cons img rest ih => intro i0; simp [imageEntries, ih]

lemma imageEntries_map_index (images : List CapturedImage) :
    ∀ i0, (imageEntries images i0).map (fun m => m.index) =
      List.range' (i0 + 1) images.length := by
  induction images with
  | nil => intro i0; rfl
  | cons img rest ih =>
    intro i0
    simp [imageEntries, ih, List.range'_succ]

lemma imageEntries_map_filename (images : List CapturedImage) :
    ∀ i0, (imageEntries images i0).map (fun m => m.filename) =
      (imageFileEntries images i0).map Prod.fst := by
  induction images with
  | nil => intro i0; rfl
  | cons img rest ih => intro i0; simp [imageEntries, imageFileEntries, ih]

lemma imageFileEntries_map_snd (images : List CapturedImage) :
    ∀ i0, (imageFileEntries images i0).map Prod.snd =
      images.map (fun img => img.base64) := by
  induction images with
  | nil => intro i0; rfl
  | cons img rest ih => intro i0; simp [imageFileEntries, ih]

lemma startsWithChars_append (m b : List Char) :
    startsWithChars (m ++ b) m = true := by
  induction m with
  | nil => cases b <;> rfl
  | cons c cs ih => simp [startsWithChars, ih]

lemma containsChars_append (a m b : List Char) :
    containsChars (a ++ (m ++ b)) m = true := by
  induction a with
  | nil =>
    cases m with
    | nil =>
      cases b with
      | nil => rfl
      | cons x xs => simp [containsChars, startsWithChars]
    | cons c cs =>
      simp only [List.nil_append, List.cons_append, containsChars]
      simp [startsWithChars, startsWithChars_append]
  | cons x xs ih =>
    simp [containsChars, ih]

lemma strContains_middle (s m : String) (a b : List Char)
    (h : s.toList = a ++ (m.toList ++ b)) : strContains s m = true := by
  unfold strContains
  rw [h]
  exact containsChars_append a m.toList b

lemma errorLog_contains_message (ts : String) (e : Err) :
    strContains (errorLogText ts e) e.message = true := by
  apply strContains_middle (errorLogText ts e) e.message
    (("Timestamp: " ++ ts ++ "\n" ++ "Error: ").toList)
    (("\n" ++ "Stack: " ++ e.stack ++ "\n" ++ "\n" ++
      "This report was saved locally because it could not be sent to Telegram." ++
      "\n" ++
      "You can manually review the analysis and images in this directory.").toList)
  simp [errorLogText, String.toList]

/-- Claim C8: when capture and analysis succeed but the text send exhausts
its retries (whatever happens to the image batches), the run saves exactly
one fallback report holding the analysis text, an error log mentioning the
triggering failure, and all deliverable items in their original order with
a metadata index of each item's 1-based position, location label and
filename; the exit code is 1. -/
theorem delivery_fallback_C8 (ts analysis : String)
    (images : List CapturedImage) (mediaOp : Nat → Nat → Except Err Unit)
    (textOp : Nat → Except Err Unit) (errOf : Nat → Err)
    (hA : analysis ≠ "") (hI : 0 < images.length)
    (hop : ∀ k, textOp k = .error (errOf k))
    (htrans : ∀ k, isTransientError (errOf k) = true) :
    runPipeline ts (.ok (analysis, images))
        (fun _ imgs => (sendWeatherReportModel imgs mediaOp textOp).outcome)
        true =
      ⟨⟨true, true, false⟩, 1,
        [mkFailedReport ts analysis images (errOf telegramRetryCfg.maxRetries)]⟩ ∧
    (mkFailedReport ts analysis images
        (errOf telegramRetryCfg.maxRetries)).analysisText = analysis ∧
    (mkFailedReport ts analysis images
        (errOf telegramRetryCfg.maxRetries)).metadata.map (fun m => m.location) =
      images.map (fun img => img.location) ∧
    (mkFailedReport ts analysis images
        (errOf telegramRetryCfg.maxRetries)).metadata.map (fun m => m.index) =
      List.range' 1 images.length ∧
    (mkFailedReport ts analysis images
        (errOf telegramRetryCfg.maxRetries)).metadata.map (fun m => m.filename) =
      (mkFailedReport ts analysis images
        (errOf telegramRetryCfg.maxRetries)).imageFiles.map Prod.fst ∧
    (mkFailedReport ts analysis images
        (errOf telegramRetryCfg.maxRetries)).imageFiles.map Prod.snd =
      images.map (fun img => img.base64) ∧
    strContains (mkFailedReport ts analysis images
        (errOf telegramRetryCfg.maxRetries)).errorLog
      (errOf telegramRetryCfg.maxRetries).message = true := by
  have htext := withRetry_allFail telegramRetryCfg textOp errOf
    (fun _ _ _ => rfl) hop (fun k => htrans k)
  have hsend : (sendWeatherReportModel images mediaOp textOp).outcome =
      .error (errOf telegramRetryCfg.maxRetries) := by
    simp only [sendWeatherReportModel]
    rw [htext.1]
  have hrun : runPipeline ts (.ok (analysis, images))
      (fun _ imgs => (sendWeatherReportModel imgs mediaOp textOp).outcome)
      true =
      ⟨⟨true, true, false⟩, 1,
        [mkFailedReport ts analysis images
          (errOf telegramRetryCfg.maxRetries)]⟩ := by
    simp only [runPipeline]
    rw [if_pos ⟨hA, hI⟩]
    rw [hsend]
    simp [determineExitCode]
  refine ⟨hrun, rfl, ?_, ?_, ?_, ?_, ?_⟩
  · exact imageEntries_map_location images 0
  · exact imageEntries_map_index images 0
  · exact imageEntries_map_filename images 0
  · exact imageFileEntries_map_snd images 0
  · exact errorLog_contains_message ts (errOf telegramRetryCfg.maxRetries)

/-- Witness for C8 at a concrete run whose batches and text send all
fail. -/
theorem delivery_fallback_C8_w :
    runPipeline "t1" (.ok ("Cerah.", [demoImg]))
        (fun _ imgs => (sendWeatherReportModel imgs
          (fun _ _ => .error errBoth) (fun _ => .error errTimeout)).outcome)
        true =
      ⟨⟨true, true, false⟩, 1,
        [mkFailedReport "t1" "Cerah." [demoImg] errTimeout]⟩ :=
  (delivery_fallback_C8 "t1" "Cerah." [demoImg] (fun _ _ => .error errBoth)
    (fun _ => .error errTimeout) (fun _ => errTimeout) (by simp) (by simp)
    (fun _ => rfl) (fun _ => rfl)).1

/-- Counterexample to claim C9: with one captured image, a failing AI call
and a successful delivery, the pipeline substitutes the fallback text — but
the run exits with code 0 (full success) and an all-true status,
contradicting the claim that a failed transformation call always yields a
nonzero exit code. -/
theorem transformation_fallback_C9_cex :
    captureAndAnalyzeModel (.ok [demoImg]) (.error { message := "503" })
        "Senin" =
      .ok (trimStr (generateFallbackMessage "Senin"), [demoImg]) ∧
    runPipeline "t2"
        (captureAndAnalyzeModel (.ok [demoImg]) (.error { message := "503" })
          "Senin")
        (fun _ _ => .ok ()) false =
      ⟨⟨true, true, true⟩, 0, []⟩ :=
  ⟨rfl, rfl⟩

/-- Claim C9 as amended: when the transformation's remote call fails the
pipeline does substitute the deterministic fallback text derived from the
day label instead of aborting — but the run is then treated as fully
successful: the orchestrator records capture and analysis as ok, and if
delivery of the fallback text succeeds the exit code is 0, not a failure
code. (The orchestrator only observes the exception path, and the fallback
suppresses the exception.) -/
theorem transformation_fallback_C9_amended (imgs : List CapturedImage)
    (e : Err) (dayName ts : String)
    (send : String → List CapturedImage → Except Err Unit) (saveOk : Bool)
    (hI : 0 < imgs.length)
    (htrim : trimStr (generateFallbackMessage dayName) ≠ "")
    (hsend : send (trimStr (generateFallbackMessage dayName)) imgs = .ok ()) :
    captureAndAnalyzeModel (.ok imgs) (.error e) dayName =
      .ok (trimStr (generateFallbackMessage dayName), imgs) ∧
    runPipeline ts (captureAndAnalyzeModel (.ok imgs) (.error e) dayName)
        send saveOk =
      ⟨⟨true, true, true⟩, 0, []⟩ := by
  have h0 : ¬ imgs.length = 0 := by omega
  have hcap : captureAndAnalyzeModel (.ok imgs) (.error e) dayName =
      .ok (trimStr (generateFallbackMessage dayName), imgs) := by
    simp [captureAndAnalyzeModel, h0]
  refine ⟨hcap, ?_⟩
  rw [hcap]
  simp only [runPipeline]
  rw [if_pos ⟨htrim, hI⟩, hsend]
  rfl

/-- Witness for the amended C9. -/
theorem transformation_fallback_C9_w :
    captureAndAnalyzeModel (.ok [demoImg]) (.error errBoth) "Senin" =
      .ok (trimStr (generateFallbackMessage "Senin"), [demoImg]) ∧
    runPipeline "t3"
        (captureAndAnalyzeModel (.ok [demoImg]) (.error errBoth) "Senin")
        (fun _ _ => .ok ()) false =
      ⟨⟨true, true, true⟩, 0, []⟩ :=
  transformation_fallback_C9_amended [demoImg] errBoth "Senin" "t3"
    (fun _ _ => .ok ()) false (by simp) (by decide) rfl

end CctvWeather
